import Mathlib

/-!
Verification development for the EcoPulse dashboard repository.

The definitions below are a shallow embedding of the repository's Python
source: SQLite fact tables become association lists keyed by their composite
primary keys, the upsert statements become insert-or-update operations on
those lists, and the orchestration code (fetch cycles, the scheduler loop,
the retrying fetch client) becomes explicit state-passing functions whose
fallible parts return `Except`.
-/

namespace EcoPulse

section TableModel

variable {K V : Type} [DecidableEq K]

/-- Keys column of a stored table, in row order.  A SQLite table with a
(composite) primary key is modelled as a `List (K × V)` whose key column is
duplicate-free. -/
def tkeys (t : List (K × V)) : List K := t.map Prod.fst

@[simp]
theorem tkeys_nil : tkeys ([] : List (K × V)) = [] := rfl

@[simp]
theorem tkeys_cons (r : K × V) (t : List (K × V)) : tkeys (r :: t) = r.1 :: tkeys t := rfl

@[simp]
theorem tkeys_append (t₁ t₂ : List (K × V)) : tkeys (t₁ ++ t₂) = tkeys t₁ ++ tkeys t₂ := by
  simp [tkeys]

/-- First stored binding for a key; on a duplicate-free table this is the
unique row addressed by the primary key. -/
def lookupKey (k : K) : List (K × V) → Option V
  | [] => none
  | r :: rest => if r.1 = k then some r.2 else lookupKey k rest

/-- Left-biased choice on `Option`, used to express that a later write to the
same key overrides an earlier one. -/
def orElseO (a b : Option V) : Option V :=
  match a with
  | some v => some v
  | none => b

theorem orElseO_none_left (b : Option V) : orElseO none b = b := rfl

theorem orElseO_none_right (a : Option V) : orElseO a none = a := by
  cases a <;> rfl

theorem orElseO_assoc (a b c : Option V) :
    orElseO (orElseO a b) c = orElseO a (orElseO b c) := by
  cases a <;> rfl

theorem orElseO_absorb (a c : Option V) : orElseO a (orElseO a c) = orElseO a c := by
  cases a <;> rfl

/-- Models one execution of the per-row statement
`INSERT INTO ... VALUES (...) ON CONFLICT(key) DO UPDATE SET <all measures>`
used by `SQLiteStorage.upsert_env_hourly` and `SQLiteStorage.upsert_macro`:
if a row with the key exists it is updated in place with the excluded row's
full measure set, otherwise the new row is appended. -/
def upsertRow (t : List (K × V)) (k : K) (v : V) : List (K × V) :=
  if k ∈ tkeys t then t.map (fun r => if r.1 = k then (k, v) else r) else t ++ [(k, v)]

/-- Models `cursor.executemany` of the upsert statement over a batch: the
per-row upsert is applied to each row of the batch in order. -/
def upsertBatch (t : List (K × V)) (b : List (K × V)) : List (K × V) :=
  b.foldl (fun acc r => upsertRow acc r.1 r.2) t

/-- Value carried by the last row of a batch that bears the given key. -/
def lastVal (b : List (K × V)) (k : K) : Option V :=
  b.foldl (fun acc r => if r.1 = k then some r.2 else acc) none

theorem lookupKey_append (k : K) (t₁ t₂ : List (K × V)) :
    lookupKey k (t₁ ++ t₂) = orElseO (lookupKey k t₁) (lookupKey k t₂) := by
  induction t₁ with
  | nil => simp [lookupKey, orElseO]
  | cons r rest ih =>
    by_cases h : r.1 = k
    · simp [lookupKey, h, orElseO]
    · simp [lookupKey, h, ih]

theorem lookupKey_eq_none (k : K) (t : List (K × V)) (h : k ∉ tkeys t) :
    lookupKey k t = none := by
  induction t with
  | nil => rfl
  | cons r rest ih =>
    simp only [tkeys_cons, List.mem_cons] at h
    push_neg at h
    have hr : ¬ r.1 = k := fun e => h.1 e.symm
    simp [lookupKey, hr, ih h.2]

theorem mem_of_lookupKey_eq_some (k : K) (v : V) (t : List (K × V))
    (h : lookupKey k t = some v) : (k, v) ∈ t := by
  induction t with
  | nil => simp [lookupKey] at h
  | cons r rest ih =>
    by_cases hr : r.1 = k
    · rw [lookupKey, if_pos hr] at h
      have hv : r.2 = v := Option.some.inj h
      have : r = (k, v) := by
        cases r
        simp only [Prod.mk.injEq]
        exact ⟨hr, hv⟩
      rw [← this]
      exact List.mem_cons_self r rest
    · rw [lookupKey, if_neg hr] at h
      exact List.mem_cons_of_mem _ (ih h)

theorem lookupKey_ne_none_of_mem (k : K) (v : V) (t : List (K × V))
    (h : (k, v) ∈ t) : lookupKey k t ≠ none := by
  induction t with
  | nil => cases h
  | cons r rest ih =>
    by_cases hr : r.1 = k
    · simp [lookupKey, hr]
    · rcases List.mem_cons.mp h with he | hm
      · exact absurd (by rw [← he]) hr
      · simp [lookupKey, hr, ih hm]

theorem lookupKey_map_update_self (t : List (K × V)) (k : K) (v : V) (h : k ∈ tkeys t) :
    lookupKey k (t.map (fun r => if r.1 = k then (k, v) else r)) = some v := by
  induction t with
  | nil => simp [tkeys] at h
  | cons r rest ih =>
    by_cases hr : r.1 = k
    · simp [lookupKey, hr]
    · have h' : k ∈ tkeys rest := by
        simp only [tkeys_cons, List.mem_cons] at h
        rcases h with he | hm
        · exact absurd he.symm hr
        · exact hm
      simp [lookupKey, hr, ih h']

theorem lookupKey_map_update_other (t : List (K × V)) (k : K) (v : V) (k' : K)
    (hne : k' ≠ k) :
    lookupKey k' (t.map (fun r => if r.1 = k then (k, v) else r)) = lookupKey k' t := by
  induction t with
  | nil => rfl
  | cons r rest ih =>
    by_cases hr : r.1 = k
    · have h1 : ¬ k = k' := fun e => hne e.symm
      have h2 : ¬ r.1 = k' := by rw [hr]; exact h1
      simp [lookupKey, hr, h1, h2, ih]
    · simp [lookupKey, hr, ih]

theorem lookupKey_upsertRow (t : List (K × V)) (k : K) (v : V) (k' : K) :
    lookupKey k' (upsertRow t k v) = if k' = k then some v else lookupKey k' t := by
  unfold upsertRow
  by_cases hm : k ∈ tkeys t
  · rw [if_pos hm]
    by_cases he : k' = k
    · subst he
      rw [if_pos rfl]
      exact lookupKey_map_update_self t k' v hm
    · rw [if_neg he]
      exact lookupKey_map_update_other t k v k' he
  · rw [if_neg hm, lookupKey_append]
    by_cases he : k' = k
    · subst he
      rw [if_pos rfl, lookupKey_eq_none k' t hm]
      simp [lookupKey, orElseO]
    · have h1 : ¬ k = k' := fun e => he e.symm
      rw [if_neg he]
      have : lookupKey k' [(k, v)] = none := by simp [lookupKey, h1]
      rw [this, orElseO_none_right]

theorem lastVal_foldl_acc (k : K) (b : List (K × V)) (acc : Option V) :
    b.foldl (fun a r => if r.1 = k then some r.2 else a) acc = orElseO (lastVal b k) acc := by
  induction b generalizing acc with
  | nil => cases acc <;> rfl
  | cons r rest ih =>
    rw [List.foldl_cons, ih]
    have hcons : lastVal (r :: rest) k =
        orElseO (lastVal rest k) (if r.1 = k then some r.2 else none) := by
      rw [lastVal, List.foldl_cons, ih]
    rw [hcons, orElseO_assoc]
    by_cases hr : r.1 = k <;> simp [hr, orElseO]

theorem lastVal_cons (r : K × V) (b : List (K × V)) (k : K) :
    lastVal (r :: b) k = orElseO (lastVal b k) (if r.1 = k then some r.2 else none) := by
  rw [lastVal, List.foldl_cons, lastVal_foldl_acc]

theorem upsertBatch_cons (t : List (K × V)) (r : K × V) (b : List (K × V)) :
    upsertBatch t (r :: b) = upsertBatch (upsertRow t r.1 r.2) b := rfl

theorem lookupKey_upsertBatch (t b : List (K × V)) (k : K) :
    lookupKey k (upsertBatch t b) = orElseO (lastVal b k) (lookupKey k t) := by
  induction b generalizing t with
  | nil => simp [upsertBatch, lastVal, orElseO]
  | cons r rest ih =>
    rw [upsertBatch_cons, ih, lookupKey_upsertRow, lastVal_cons, orElseO_assoc]
    congr 1
    by_cases hr : r.1 = k
    · rw [if_pos hr.symm, if_pos hr]
      rfl
    · rw [if_neg (fun e => hr e.symm), if_neg hr]
      rfl

theorem tkeys_upsertRow_of_mem (t : List (K × V)) (k : K) (v : V) (h : k ∈ tkeys t) :
    tkeys (upsertRow t k v) = tkeys t := by
  rw [upsertRow, if_pos h]
  unfold tkeys
  rw [List.map_map]
  apply List.map_congr_left
  intro r _
  by_cases hr : r.1 = k
  · simp [Function.comp, hr]
  · simp [Function.comp, hr]

theorem tkeys_upsertRow_of_not_mem (t : List (K × V)) (k : K) (v : V) (h : k ∉ tkeys t) :
    tkeys (upsertRow t k v) = tkeys t ++ [k] := by
  rw [upsertRow, if_neg h]
  simp [tkeys]

theorem mem_tkeys_upsertRow_self (t : List (K × V)) (k : K) (v : V) :
    k ∈ tkeys (upsertRow t k v) := by
  by_cases h : k ∈ tkeys t
  · rw [tkeys_upsertRow_of_mem t k v h]; exact h
  · rw [tkeys_upsertRow_of_not_mem t k v h]; simp

theorem mem_tkeys_upsertRow_mono (t : List (K × V)) (k : K) (v : V) (k' : K)
    (h : k' ∈ tkeys t) : k' ∈ tkeys (upsertRow t k v) := by
  by_cases hm : k ∈ tkeys t
  · rw [tkeys_upsertRow_of_mem t k v hm]; exact h
  · rw [tkeys_upsertRow_of_not_mem t k v hm]; exact List.mem_append_left _ h

theorem mem_tkeys_upsertBatch_mono (b : List (K × V)) (t : List (K × V)) (k' : K)
    (h : k' ∈ tkeys t) : k' ∈ tkeys (upsertBatch t b) := by
  induction b generalizing t with
  | nil => exact h
  | cons r rest ih =>
    rw [upsertBatch_cons]
    exact ih _ (mem_tkeys_upsertRow_mono t r.1 r.2 k' h)

theorem mem_tkeys_upsertBatch_of_mem_batch (b : List (K × V)) (t : List (K × V))
    (r : K × V) (h : r ∈ b) : r.1 ∈ tkeys (upsertBatch t b) := by
  induction b generalizing t with
  | nil => cases h
  | cons r₀ rest ih =>
    rw [upsertBatch_cons]
    rcases List.mem_cons.mp h with he | hm
    · subst he
      exact mem_tkeys_upsertBatch_mono rest _ r.1 (mem_tkeys_upsertRow_self t r.1 r.2)
    · exact ih _ hm

theorem tkeys_upsertBatch_of_subset (b : List (K × V)) (t : List (K × V))
    (h : ∀ r ∈ b, r.1 ∈ tkeys t) : tkeys (upsertBatch t b) = tkeys t := by
  induction b generalizing t with
  | nil => rfl
  | cons r rest ih =>
    have h1 : r.1 ∈ tkeys t := h r (List.mem_cons_self r rest)
    have hk : tkeys (upsertRow t r.1 r.2) = tkeys t := tkeys_upsertRow_of_mem t r.1 r.2 h1
    rw [upsertBatch_cons, ih _ (fun r' hr' => by rw [hk]; exact h r' (List.mem_cons_of_mem _ hr'))]
    exact hk

theorem nodup_tkeys_upsertRow (t : List (K × V)) (k : K) (v : V)
    (h : (tkeys t).Nodup) : (tkeys (upsertRow t k v)).Nodup := by
  by_cases hm : k ∈ tkeys t
  · rw [tkeys_upsertRow_of_mem t k v hm]; exact h
  · rw [tkeys_upsertRow_of_not_mem t k v hm]
    simp [List.nodup_append, h, hm]

theorem nodup_tkeys_upsertBatch (b : List (K × V)) (t : List (K × V))
    (h : (tkeys t).Nodup) : (tkeys (upsertBatch t b)).Nodup := by
  induction b generalizing t with
  | nil => exact h
  | cons r rest ih =>
    rw [upsertBatch_cons]
    exact ih _ (nodup_tkeys_upsertRow t r.1 r.2 h)

theorem table_ext (t₁ : List (K × V)) : ∀ (t₂ : List (K × V)), (tkeys t₁).Nodup →
    tkeys t₁ = tkeys t₂ → (∀ k, lookupKey k t₁ = lookupKey k t₂) → t₁ = t₂ := by
  induction t₁ with
  | nil =>
    intro t₂ _ hk _
    cases t₂ with
    | nil => rfl
    | cons r rest => simp [tkeys] at hk
  | cons r₁ r₁s ih =>
    intro t₂ hn hk hl
    cases t₂ with
    | nil => simp [tkeys] at hk
    | cons r₂ r₂s =>
      simp only [tkeys_cons, List.cons.injEq] at hk
      obtain ⟨h1, h2⟩ := hk
      simp only [tkeys_cons, List.nodup_cons] at hn
      obtain ⟨hmem, hntail⟩ := hn
      have hv : r₁.2 = r₂.2 := by
        have hh := hl r₁.1
        rw [lookupKey, if_pos rfl, lookupKey, if_pos h1.symm] at hh
        exact Option.some.inj hh
      have htail : ∀ k, lookupKey k r₁s = lookupKey k r₂s := by
        intro k
        by_cases hkk : k = r₁.1
        · rw [hkk, lookupKey_eq_none r₁.1 r₁s hmem,
            lookupKey_eq_none r₁.1 r₂s (by rw [← h2]; exact hmem)]
        · have hh := hl k
          have hr1 : ¬ r₁.1 = k := fun e => hkk e.symm
          have hr2 : ¬ r₂.1 = k := by rw [← h1]; exact hr1
          rw [lookupKey, if_neg hr1, lookupKey, if_neg hr2] at hh
          exact hh
      have hrec := ih r₂s hntail h2 htail
      have hr : r₁ = r₂ := by
        cases r₁
        cases r₂
        simp only [Prod.mk.injEq]
        exact ⟨h1, hv⟩
      rw [hr, hrec]

theorem countP_key_eq_zero (t : List (K × V)) (k : K) (h : k ∉ tkeys t) :
    t.countP (fun r => decide (r.1 = k)) = 0 := by
  induction t with
  | nil => rfl
  | cons r rest ih =>
    simp only [tkeys_cons, List.mem_cons] at h
    push_neg at h
    have hr : ¬ r.1 = k := fun e => h.1 e.symm
    simp [List.countP_cons, hr, ih h.2]

theorem countP_key_eq_one (t : List (K × V)) (k : K)
    (hn : (tkeys t).Nodup) (hm : k ∈ tkeys t) :
    t.countP (fun r => decide (r.1 = k)) = 1 := by
  induction t with
  | nil => simp [tkeys] at hm
  | cons r rest ih =>
    simp only [tkeys_cons, List.nodup_cons] at hn
    obtain ⟨hnm, hnr⟩ := hn
    rcases List.mem_cons.mp hm with he | hmm
    · have hr : r.1 = k := he.symm
      have hz : rest.countP (fun r => decide (r.1 = k)) = 0 := by
        apply countP_key_eq_zero
        rw [← hr]
        exact hnm
      simp [List.countP_cons, hr, hz]
    · have hr : ¬ r.1 = k := fun e => hnm (by rw [e]; exact hmm)
      simp [List.countP_cons, hr, ih hnr hmm]

/-- Idempotence of a batched upsert over a table whose key column is
duplicate-free (the primary-key invariant). -/
theorem upsertBatch_idem (t b : List (K × V)) (h : (tkeys t).Nodup) :
    upsertBatch (upsertBatch t b) b = upsertBatch t b := by
  apply table_ext
  · exact nodup_tkeys_upsertBatch b _ (nodup_tkeys_upsertBatch b t h)
  · exact tkeys_upsertBatch_of_subset b _ (fun r hr => mem_tkeys_upsertBatch_of_mem_batch b t r hr)
  · intro k
    rw [lookupKey_upsertBatch, lookupKey_upsertBatch, ← orElseO_assoc]
    rw [show orElseO (lastVal b k) (lastVal b k) = lastVal b k from by cases lastVal b k <;> rfl]

/-- Last-write-wins for a key present in the table and written by the batch:
exactly one row remains and it carries the batch's final value. -/
theorem upsertBatch_lww (t b : List (K × V)) (k : K) (v : V)
    (hn : (tkeys t).Nodup) (hm : k ∈ tkeys t) (hv : lastVal b k = some v) :
    (upsertBatch t b).countP (fun r => decide (r.1 = k)) = 1 ∧
      lookupKey k (upsertBatch t b) = some v := by
  constructor
  · exact countP_key_eq_one _ _ (nodup_tkeys_upsertBatch b t hn) (mem_tkeys_upsertBatch_mono b t k hm)
  · rw [lookupKey_upsertBatch, hv]
    rfl

end TableModel

/-- Measure set of one `fact_env_hourly` row: the seven nullable REAL columns
of the table (`_init_schema` in `sqlite_storage.py`).  Numeric values are
modelled as rationals; the storage layer never computes with them. -/
structure EnvMeasures where
  temp_c : Option ℚ
  wind_kph : Option ℚ
  precip_mm : Option ℚ
  pm2_5 : Option ℚ
  pm10 : Option ℚ
  european_aqi : Option ℚ
  us_aqi : Option ℚ
deriving DecidableEq, Repr

/-- Composite primary key of `fact_env_hourly`: (location_key, ts_utc). -/
abbrev EnvKey := String × String

/-- The `fact_env_hourly` table. -/
abbrev EnvTable := List (EnvKey × EnvMeasures)

/-- Composite primary key of `fact_macro_annual`: (region_code,
indicator_code, year). -/
abbrev MacroKey := String × String × Int

/-- The `fact_macro_annual` table; the payload is the single nullable REAL
`value` column. -/
abbrev MacroTable := List (MacroKey × Option ℚ)

/-- Models `SQLiteStorage.upsert_env_hourly`: `executemany` of
`INSERT INTO fact_env_hourly ... ON CONFLICT(location_key, ts_utc) DO UPDATE
SET <all seven measure columns> = excluded.<column>` over the batch. -/
def upsert_env_hourly (t : EnvTable) (rows : List (EnvKey × EnvMeasures)) : EnvTable :=
  upsertBatch t rows

/-- Models `SQLiteStorage.upsert_macro`: `executemany` of
`INSERT INTO fact_macro_annual ... ON CONFLICT(region_code, indicator_code,
year) DO UPDATE SET value = excluded.value` over the batch. -/
def upsert_macro_rows (t : MacroTable) (rows : List (MacroKey × Option ℚ)) : MacroTable :=
  upsertBatch t rows

/-- C1: for every batch of environmental rows and every batch of macro rows,
applying the same upsert batch twice (`upsert_env_hourly`, `upsert_macro`)
leaves the stored fact tables in exactly the same state as applying it once.
The tables range over all states satisfying the primary-key invariant
(duplicate-free key column), which SQLite enforces. -/
theorem c1_upsert_batch_idempotent (tE : EnvTable) (bE : List (EnvKey × EnvMeasures))
    (tM : MacroTable) (bM : List (MacroKey × Option ℚ))
    (hE : (tkeys tE).Nodup) (hM : (tkeys tM).Nodup) :
    upsert_env_hourly (upsert_env_hourly tE bE) bE = upsert_env_hourly tE bE ∧
      upsert_macro_rows (upsert_macro_rows tM bM) bM = upsert_macro_rows tM bM :=
  ⟨upsertBatch_idem tE bE hE, upsertBatch_idem tM bM hM⟩

/-- Concrete environmental batch used by the witnesses (values from the
repository's storage test). -/
def envBatchEx : List (EnvKey × EnvMeasures) :=
  [(("ams", "2024-01-01T00:00:00Z"), ⟨some 5, some 10, some (2/10), some (33/10),
      some (44/10), some 55, some 60⟩),
   (("bru", "2024-01-01T01:00:00Z"), ⟨some 6, some 11, some (1/10), some 3,
      some 4, some 50, some 58⟩)]

/-- Concrete macro batches used by the witnesses (spec scenario: values 4.2
then 4.5 for the key (NLD, FP.CPI.TOTL.ZG, 2023)). -/
def macroBatch1 : List (MacroKey × Option ℚ) :=
  [(("NLD", "FP.CPI.TOTL.ZG", 2023), some (42/10))]

/-- Second macro batch of the spec scenario. -/
def macroBatch2 : List (MacroKey × Option ℚ) :=
  [(("NLD", "FP.CPI.TOTL.ZG", 2023), some (45/10))]

/-- Witness for C1 at concrete batches, starting from the empty tables. -/
theorem c1_upsert_batch_idempotent_witness :
    upsert_env_hourly (upsert_env_hourly [] envBatchEx) envBatchEx =
        upsert_env_hourly [] envBatchEx ∧
      upsert_macro_rows (upsert_macro_rows [] macroBatch1) macroBatch1 =
        upsert_macro_rows [] macroBatch1 :=
  c1_upsert_batch_idempotent [] envBatchEx [] macroBatch1 List.nodup_nil List.nodup_nil

/-- Result row shape of `SQLiteStorage.macro_latest`:
(region_code, year, value). -/
abbrev MacroResultRow := String × Int × Option ℚ

/-- Ordering used by `ORDER BY year DESC`: a row comes before another when its
year is at least the other's. -/
def yearDescRel (a b : MacroResultRow) : Prop := b.2.1 ≤ a.2.1

instance : DecidableRel yearDescRel := fun a b => Int.decLe b.2.1 a.2.1

instance : IsTotal MacroResultRow yearDescRel :=
  ⟨fun a b => Int.le_total b.2.1 a.2.1⟩

instance : IsTrans MacroResultRow yearDescRel :=
  ⟨fun _ _ _ hab hbc => le_trans hbc hab⟩

/-- Models `SQLiteStorage.macro_latest`:
`SELECT region_code, year, value FROM fact_macro_annual WHERE indicator_code=?
ORDER BY year DESC`.  SQLite leaves the relative order of rows with equal
years unspecified; insertion sort is one faithful realisation of the
`ORDER BY`. -/
def macro_latest (t : MacroTable) (ind : String) : List MacroResultRow :=
  List.insertionSort yearDescRel
    ((t.filter (fun r => decide (r.1.2.1 = ind))).map (fun r => (r.1.1, r.1.2.2, r.2)))

/-- C2: for every upsert batch containing a composite key already present in
the fact table, after the upsert exactly one row exists for that key and its
full measure set equals the most recently applied batch's values for that key
(complete replacement, not a merge). -/
theorem c2_upsert_last_write_wins (tE : EnvTable) (bE : List (EnvKey × EnvMeasures))
    (kE : EnvKey) (vE : EnvMeasures)
    (tM : MacroTable) (bM : List (MacroKey × Option ℚ)) (kM : MacroKey) (vM : Option ℚ)
    (hnE : (tkeys tE).Nodup) (hmE : kE ∈ tkeys tE) (hvE : lastVal bE kE = some vE)
    (hnM : (tkeys tM).Nodup) (hmM : kM ∈ tkeys tM) (hvM : lastVal bM kM = some vM) :
    ((upsert_env_hourly tE bE).countP (fun r => decide (r.1 = kE)) = 1 ∧
        lookupKey kE (upsert_env_hourly tE bE) = some vE) ∧
      ((upsert_macro_rows tM bM).countP (fun r => decide (r.1 = kM)) = 1 ∧
        lookupKey kM (upsert_macro_rows tM bM) = some vM) :=
  ⟨upsertBatch_lww tE bE kE vE hnE hmE hvE, upsertBatch_lww tM bM kM vM hnM hmM hvM⟩

/-- Witness for C2: the spec scenario of two sequential macro upserts for the
key (NLD, FP.CPI.TOTL.ZG, 2023) with values 4.2 then 4.5, and the analogous
environmental overwrite. -/
theorem c2_upsert_last_write_wins_witness :
    ((upsert_env_hourly (upsert_env_hourly [] envBatchEx)
          [(("ams", "2024-01-01T00:00:00Z"), ⟨some (75/10), some 12, some (3/10),
              some (25/10), some (35/10), some 53, some 59⟩)]).countP
        (fun r => decide (r.1 = (("ams", "2024-01-01T00:00:00Z") : EnvKey))) = 1 ∧
      lookupKey (("ams", "2024-01-01T00:00:00Z") : EnvKey)
          (upsert_env_hourly (upsert_env_hourly [] envBatchEx)
            [(("ams", "2024-01-01T00:00:00Z"), ⟨some (75/10), some 12, some (3/10),
                some (25/10), some (35/10), some 53, some 59⟩)]) =
        some ⟨some (75/10), some 12, some (3/10), some (25/10), some (35/10),
          some 53, some 59⟩) ∧
    ((upsert_macro_rows (upsert_macro_rows [] macroBatch1) macroBatch2).countP
        (fun r => decide (r.1 = (("NLD", "FP.CPI.TOTL.ZG", 2023) : MacroKey))) = 1 ∧
      lookupKey (("NLD", "FP.CPI.TOTL.ZG", 2023) : MacroKey)
          (upsert_macro_rows (upsert_macro_rows [] macroBatch1) macroBatch2) =
        some (some (45/10))) :=
  c2_upsert_last_write_wins (upsert_env_hourly [] envBatchEx) _ _ _
    (upsert_macro_rows [] macroBatch1) _ _ _
    (by decide) (by decide) (by rfl) (by decide) (by decide) (by rfl)

/-- Macro table holding two years for the same region and indicator, built by
two upserts (the shape `macro_latest` is queried on). -/
def macroTableTwoYears : MacroTable :=
  upsert_macro_rows (upsert_macro_rows [] [(("NLD", "IND", 2022), some 1)])
    [(("NLD", "IND", 2023), some 2)]

/-- C9 counterexample: the table holds two rows for region NLD under
indicator IND, and `macro_latest` returns both of them (two result rows for
that region), not exactly one as the claim states; the query has no per-region
deduplication. -/
theorem c9_counterexample_two_rows_per_region :
    macroTableTwoYears.countP
        (fun r => decide (r.1.1 = "NLD" ∧ r.1.2.1 = "IND")) = 2 ∧
      (macro_latest macroTableTwoYears ("IND")).countP
        (fun r => decide (r.1 = "NLD")) = 2 := by
  constructor
  · decide
  · decide

/-- C9 amended: for every indicator, `macro_latest` returns every stored row
for that indicator (one result row per (region, year) pair, so a region with
several years appears several times), ordered by year descending; consequently
for each region the first returned row for that region carries that region's
greatest year. -/
theorem c9_macro_latest_sorted_all_rows (t : MacroTable) (ind : String) :
    (macro_latest t ind).Perm
        ((t.filter (fun r => decide (r.1.2.1 = ind))).map (fun r => (r.1.1, r.1.2.2, r.2))) ∧
      (macro_latest t ind).Sorted yearDescRel ∧
      ∀ (reg : String) (h : MacroResultRow) (rest : List MacroResultRow),
        (macro_latest t ind).filter (fun r => decide (r.1 = reg)) = h :: rest →
        ∀ x ∈ rest, x.2.1 ≤ h.2.1 := by
  refine ⟨List.perm_insertionSort yearDescRel _, List.sorted_insertionSort yearDescRel _, ?_⟩
  intro reg h rest hf x hx
  have hs : ((macro_latest t ind).filter (fun r => decide (r.1 = reg))).Sorted yearDescRel :=
    List.Pairwise.sublist (List.filter_sublist _) (List.sorted_insertionSort yearDescRel _)
  rw [hf] at hs
  exact (List.pairwise_cons.mp hs).1 x hx

/-- Witness for C9 amended at the two-year table: the NLD rows come back
newest year first. -/
theorem c9_macro_latest_sorted_all_rows_witness :
    (macro_latest macroTableTwoYears ("IND")).filter
        (fun r => decide (r.1 = "NLD")) =
      [("NLD", 2023, some 2), ("NLD", 2022, some 1)] ∧ (2022 : Int) ≤ 2023 :=
  ⟨rfl,
    (c9_macro_latest_sorted_all_rows macroTableTwoYears ("IND")).2.2 ("NLD")
      ("NLD", 2023, some 2) [("NLD", 2022, some 1)] rfl
      ("NLD", 2022, some 1) (List.mem_cons_self _ _)⟩

/-- Response object of a completed HTTP round trip (`requests.Response`):
only the pieces `_do_request` hands back matter here. -/
structure HResp where
  status_code : Nat
  body : String
deriving DecidableEq, Repr

/-- `config.MAX_RETRIES` from `config.py`. -/
def MAX_RETRIES : Nat := 2

/-- Helper for classifying one attempt's outcome. -/
def isErr (x : Except String HResp) : Bool :=
  match x with
  | Except.error _ => true
  | Except.ok _ => false

/-- Error message of a failed attempt, if it failed. -/
def errMsg (x : Except String HResp) : Option String :=
  match x with
  | Except.error e => some e
  | Except.ok _ => none

/-- The triple `(resp, error, duration_ms)` returned by `_do_request`,
extended with the number of attempts performed and the trace of
`time.sleep` calls (in milliseconds) so that the retry/backoff behaviour is
observable. -/
structure DoRequestResult where
  resp : Option HResp
  error : Option String
  duration_ms : Nat
  attemptsMade : Nat
  sleeps_ms : List Nat
deriving DecidableEq, Repr

/-- Loop body of `_do_request` in `sources/base.py`.  The attempt oracle
`att` gives, per attempt index, the outcome of `requests.get` (a transport
exception message or a response) and the attempt's wall-clock duration in
milliseconds.  On a response the function returns immediately; on an
exception it records the message, sleeps `1 + attempt` seconds and
continues with the next attempt of the `range(MAX_RETRIES + 1)` loop. -/
def doRequestAux (att : Nat → Except String HResp × Nat) :
    Nat → Nat → Nat → Option String → List Nat → DoRequestResult
  | i, 0, elapsed, err, sleeps => ⟨none, err, elapsed, i, sleeps.reverse⟩
  | i, rem + 1, elapsed, _err, sleeps =>
    match att i with
    | (Except.ok r, d) => ⟨some r, none, elapsed + d, i + 1, sleeps.reverse⟩
    | (Except.error e, d) =>
      doRequestAux att (i + 1) rem (elapsed + d + (1 + i) * 1000) (some e)
        ((1 + i) * 1000 :: sleeps)

/-- Models `_do_request` (`sources/base.py`): up to `MAX_RETRIES + 1`
attempts starting from attempt index 0 with no elapsed time, no recorded
error and no sleeps performed. -/
def do_request (att : Nat → Except String HResp × Nat) : DoRequestResult :=
  doRequestAux att 0 (MAX_RETRIES + 1) 0 none []

/-- Total duration of `n` consecutive failed attempts starting at attempt
`i`: each attempt's own duration plus its `(1 + index)` second backoff. -/
def attDur (att : Nat → Except String HResp × Nat) (i : Nat) : Nat → Nat
  | 0 => 0
  | n + 1 => (att i).2 + (1 + i) * 1000 + attDur att (i + 1) n

/-- Backoff sleeps (ms) performed by `n` consecutive failed attempts
starting at attempt `i`: `(1+i)*1000, (2+i)*1000, ...`. -/
def backoffs (i : Nat) : Nat → List Nat
  | 0 => []
  | n + 1 => (1 + i) * 1000 :: backoffs (i + 1) n

theorem backoffs_length (i : Nat) : ∀ n, (backoffs i n).length = n := by
  intro n
  induction n generalizing i with
  | zero => rfl
  | succ n ih => simp [backoffs, ih]

theorem doRequestAux_attempts_le (att : Nat → Except String HResp × Nat) :
    ∀ (n i elapsed : Nat) (err : Option String) (sleeps : List Nat),
    (doRequestAux att i n elapsed err sleeps).attemptsMade ≤ i + n := by
  intro n
  induction n with
  | zero => intro i elapsed err sleeps; simp [doRequestAux]
  | succ n ih =>
    intro i elapsed err sleeps
    rcases hp : att i with ⟨x, d⟩
    cases x with
    | ok r =>
      simp only [doRequestAux, hp]
      omega
    | error e =>
      simp only [doRequestAux, hp]
      have := ih (i + 1) (elapsed + d + (1 + i) * 1000) (some e) ((1 + i) * 1000 :: sleeps)
      omega

theorem doRequestAux_all_fail (att : Nat → Except String HResp × Nat) :
    ∀ (n i elapsed : Nat) (err : Option String) (sleeps : List Nat),
    (∀ j, j < n → isErr (att (i + j)).1 = true) →
    doRequestAux att i n elapsed err sleeps =
      ⟨none, (if n = 0 then err else errMsg (att (i + n - 1)).1),
        elapsed + attDur att i n, i + n, sleeps.reverse ++ backoffs i n⟩ := by
  intro n
  induction n with
  | zero =>
    intro i elapsed err sleeps _
    simp [doRequestAux, attDur, backoffs]
  | succ n ih =>
    intro i elapsed err sleeps hfail
    have h0 : isErr (att i).1 = true := by
      have := hfail 0 (Nat.succ_pos n)
      rwa [Nat.add_zero] at this
    rcases hp : att i with ⟨x, d⟩
    cases x with
    | ok r => rw [hp] at h0; simp [isErr] at h0
    | error e =>
      have hfail' : ∀ j, j < n → isErr (att (i + 1 + j)).1 = true := by
        intro j hj
        have := hfail (j + 1) (Nat.succ_lt_succ hj)
        rwa [show i + (j + 1) = i + 1 + j by omega] at this
      simp only [doRequestAux, hp]
      rw [ih (i + 1) (elapsed + d + (1 + i) * 1000) (some e) ((1 + i) * 1000 :: sleeps) hfail']
      simp only [DoRequestResult.mk.injEq]
      refine ⟨trivial, ?_, ?_, by omega, ?_⟩
      · by_cases hn : n = 0
        · subst hn
          simp [errMsg, hp]
        · have h1 : i + 1 + n - 1 = i + (n + 1) - 1 := by omega
          simp [hn, h1]
      · simp only [attDur, hp]
        omega
      · simp [backoffs, List.reverse_cons, List.append_assoc]

/-- C7 counterexample input: every attempt fails by transport error after
10 ms, with a distinct message per attempt. -/
def attAllFail : Nat → Except String HResp × Nat :=
  fun i => (Except.error (List.getD ["e0", "e1", "e2"] i ("e?")), 10)

/-- C7 counterexample: with `MAX_RETRIES = 2` and every attempt failing,
the fetch client makes 3 attempts but performs 3 backoff sleeps
(1 s, 2 s, 3 s) — the last sleep happens after the final attempt, when no
retry follows, so the backoff is not performed only before a retry as the
claim states. -/
theorem c7_counterexample_sleep_after_last_attempt :
    (do_request attAllFail).attemptsMade = 3 ∧
      (do_request attAllFail).sleeps_ms = [1000, 2000, 3000] ∧
      ¬ ((do_request attAllFail).sleeps_ms.length ≤
          (do_request attAllFail).attemptsMade - 1) :=
  ⟨rfl, rfl, by decide⟩

/-- C7 amended: the fetch client makes at most `MAX_RETRIES + 1` attempts; a
completed HTTP round trip is returned immediately whatever its status code
(no retry on HTTP error statuses); when every attempt fails it returns
exactly one failure result (a single triple, not one per attempt) whose
error is the last attempt's message and whose duration is the total elapsed
time over all attempts — but the increasing `1 + attempt_index` second
backoff is slept after every failed attempt, including the final one, not
only before a retry. -/
theorem c7_retry_and_backoff (att : Nat → Except String HResp × Nat) :
    (do_request att).attemptsMade ≤ MAX_RETRIES + 1 ∧
      (∀ (r : HResp) (d : Nat), att 0 = (Except.ok r, d) →
        do_request att = ⟨some r, none, d, 1, []⟩) ∧
      ((∀ j, j ≤ MAX_RETRIES → isErr (att j).1 = true) →
        do_request att =
          ⟨none, errMsg (att MAX_RETRIES).1, attDur att 0 (MAX_RETRIES + 1),
            MAX_RETRIES + 1, backoffs 0 (MAX_RETRIES + 1)⟩ ∧
          (backoffs 0 (MAX_RETRIES + 1)).length = MAX_RETRIES + 1) := by
  refine ⟨?_, ?_, ?_⟩
  · have := doRequestAux_attempts_le att (MAX_RETRIES + 1) 0 0 none []
    simpa [do_request] using this
  · intro r d h
    simp [do_request, MAX_RETRIES, doRequestAux, h]
  · intro hfail
    constructor
    · have := doRequestAux_all_fail att (MAX_RETRIES + 1) 0 0 none
        [] (fun j hj => by simpa using hfail j (Nat.lt_succ_iff.mp hj))
      simpa [do_request] using this
    · exact backoffs_length 0 (MAX_RETRIES + 1)

/-- Witness for C7 amended: the all-fail oracle yields a single failure
result retaining the last message `e2`, total duration
3 × 10 ms + (1+2+3) s, three attempts and three backoff sleeps. -/
theorem c7_retry_and_backoff_witness :
    do_request attAllFail = ⟨none, some ("e2"), 6030, 3, [1000, 2000, 3000]⟩ := by
  rw [((c7_retry_and_backoff attAllFail).2.2 (fun j _ => rfl)).1]
  rfl

/-- Auxiliary splitter: Python `str.split(sep)` over the character list of a
string, accumulating the current fragment. -/
def splitOnCharAux (c : Char) : List Char → List Char → List (List Char)
  | [], acc => [acc.reverse]
  | x :: xs, acc =>
    if x = c then acc.reverse :: splitOnCharAux c xs []
    else splitOnCharAux c xs (x :: acc)

/-- Python `str.split(sep)` for a one-character separator: always returns at
least one (possibly empty) fragment. -/
def splitOnChar (c : Char) (l : List Char) : List (List Char) :=
  splitOnCharAux c l []

/-- Joins fragments with the separator (inverse of splitting, used to model
the unsplit head of `str.rsplit(sep, 2)`). -/
def joinWith (c : Char) : List (List Char) → List Char
  | [] => []
  | [x] => x
  | x :: y :: xs => x ++ c :: joinWith c (y :: xs)

/-- Python `source.rsplit("-", 2)`: at most two splits taken from the right,
so at most three parts; with two hyphens or fewer this equals a full split. -/
def rsplit2 (s : String) : List String :=
  let ps := splitOnChar ('-') s.toList
  if ps.length ≤ 3 then ps.map String.mk
  else (joinWith ('-') (ps.take (ps.length - 2)) :: ps.drop (ps.length - 2)).map String.mk

/-- The `"hourly"` object of an Open-Meteo payload, restricted to the keys
`transform_environment` reads: the `time` array and the seven measure
arrays, each `none` when the key is absent (Python then substitutes
`[None] * len(times)`).  Entries of a present array are nullable numbers. -/
structure HourlyPayload where
  time : List String
  temperature_2m : Option (List (Option ℚ))
  wind_speed_10m : Option (List (Option ℚ))
  precipitation : Option (List (Option ℚ))
  pm2_5 : Option (List (Option ℚ))
  pm10 : Option (List (Option ℚ))
  european_aqi : Option (List (Option ℚ))
  us_aqi : Option (List (Option ℚ))
deriving DecidableEq, Repr

/-- A truthy JSON-dict payload as seen by `transform_environment`: only its
`"hourly"` member matters (`none` when the key is absent, in which case the
code falls back to an empty dict). -/
structure EnvPayload where
  hourly : Option HourlyPayload
deriving DecidableEq, Repr

/-- The parts of a `RawFetchResult` that `transform_environment` consumes:
`source`, `ok` and `payload_json`.  `payload := none` models a `None` or
falsy payload (skipped by the guard `not result.ok or not
result.payload_json`). -/
structure EnvEnvelope where
  source : String
  ok : Bool
  payload : Option EnvPayload
deriving DecidableEq, Repr

/-- Models `hourly.get(key, [None] * len(times))[idx]` for an hourly measure
array (faithful whenever a present array has the same length as `time`,
which is how Open-Meteo payloads are shaped; Python would raise on a shorter
array where this total model yields `none`). -/
def getCol (col : Option (List (Option ℚ))) (n idx : Nat) : Option ℚ :=
  (col.getD (List.replicate n none)).getD idx none

/-- Weather measures of one timestamp as grouped by the transform. -/
abbrev WRow := Option ℚ × Option ℚ × Option ℚ

/-- Air-quality measures of one timestamp as grouped by the transform. -/
abbrev ARow := Option ℚ × Option ℚ × Option ℚ × Option ℚ

/-- The empty air dict entry `adata.get(key)` falls back to. -/
def emptyARow : ARow := (none, none, none, none)

/-- The empty hourly dict used when `"hourly"` is absent or not a dict. -/
def emptyHourly : HourlyPayload := ⟨[], none, none, none, none, none, none, none⟩

/-- The per-timestamp weather dict comprehension of `transform_environment`
(`{ts: {...} for idx, ts in enumerate(times)}`); a duplicate timestamp
overwrites the earlier entry, like a Python dict comprehension. -/
def weatherDictOf (h : HourlyPayload) : List (String × WRow) :=
  h.time.enum.foldl
    (fun d p =>
      upsertRow d p.2 (getCol h.temperature_2m h.time.length p.1,
        getCol h.wind_speed_10m h.time.length p.1,
        getCol h.precipitation h.time.length p.1)) []

/-- The per-timestamp air-quality dict comprehension of
`transform_environment`. -/
def airDictOf (h : HourlyPayload) : List (String × ARow) :=
  h.time.enum.foldl
    (fun d p =>
      upsertRow d p.2 (getCol h.pm2_5 h.time.length p.1,
        getCol h.pm10 h.time.length p.1,
        getCol h.european_aqi h.time.length p.1,
        getCol h.us_aqi h.time.length p.1)) []

/-- First loop of `transform_environment`: builds `weather_data` and
`air_data`, keyed by location, from the raw envelopes.  An envelope is
skipped unless it is ok with a truthy payload and its source label rsplits
into exactly three parts; the middle part selects the weather or air branch
and a repeated location overwrites the earlier dict. -/
def collectEnvData (results : List EnvEnvelope) :
    List (String × List (String × WRow)) × List (String × List (String × ARow)) :=
  results.foldl
    (fun acc r =>
      match r.ok, r.payload with
      | true, some p =>
        let parts := rsplit2 r.source
        if parts.length = 3 then
          let category := parts.getD 1 ("")
          let lk := parts.getD 2 ("")
          let hourly := p.hourly.getD emptyHourly
          if category = "weather" then (upsertRow acc.1 lk (weatherDictOf hourly), acc.2)
          else if category = "air" then (acc.1, upsertRow acc.2 lk (airDictOf hourly))
          else acc
        else acc
      | _, _ => acc)
    ([], [])

/-- Keys of `config.LOCATIONS` (Amsterdam, Brussels, New York City). -/
def LOCATION_KEYS : List String := ["ams", "bru", "nyc"]

/-- Second loop of `transform_environment`, for one location: one output row
per timestamp of the location's weather dict, with the air measures of the
same timestamp if present and `None` otherwise. -/
def envRowsFor (results : List EnvEnvelope) (lk : String) : List (EnvKey × EnvMeasures) :=
  let weather := (lookupKey lk (collectEnvData results).1).getD []
  let air := (lookupKey lk (collectEnvData results).2).getD []
  weather.map (fun p =>
    let a := (lookupKey p.1 air).getD emptyARow
    ((lk, p.1), ⟨p.2.1, p.2.2.1, p.2.2.2, a.1, a.2.1, a.2.2.1, a.2.2.2⟩))

/-- Models `transform_environment` including its storage effect: for each
configured location, the rows are upserted as one batch when non-empty. -/
def transform_environment (results : List EnvEnvelope) (st : EnvTable) : EnvTable :=
  LOCATION_KEYS.foldl
    (fun s lk =>
      let rows := envRowsFor results lk
      if rows.isEmpty then s else upsert_env_hourly s rows) st

/-- C6 amended: a timestamp present in a location's weather dict but absent
from its air dict is emitted as a fact row with the weather measures
populated and all four air-quality measures unset — but the symmetric case
does not hold: the transform iterates only the weather timestamps, so a
timestamp with no weather entry (in particular one present only in the
air-quality envelope) is never emitted for that location. -/
theorem c6_env_join_weather_side (results : List EnvEnvelope) (lk ts : String) (w : WRow) :
    (lookupKey ts ((lookupKey lk (collectEnvData results).1).getD []) = some w →
      lookupKey ts ((lookupKey lk (collectEnvData results).2).getD []) = none →
      ((lk, ts), (⟨w.1, w.2.1, w.2.2, none, none, none, none⟩ : EnvMeasures)) ∈
        envRowsFor results lk) ∧
    (lookupKey ts ((lookupKey lk (collectEnvData results).1).getD []) = none →
      ∀ m : EnvMeasures, ((lk, ts), m) ∉ envRowsFor results lk) := by
  constructor
  · intro hw ha
    have hmem := mem_of_lookupKey_eq_some ts w _ hw
    simp only [envRowsFor, List.mem_map]
    exact ⟨(ts, w), hmem, by simp [ha, emptyARow]⟩
  · intro hw m hmem
    simp only [envRowsFor, List.mem_map] at hmem
    obtain ⟨p, hp, heq⟩ := hmem
    have hts : p.1 = ts := by
      have h1 := congrArg (fun q : EnvKey × EnvMeasures => q.1.2) heq
      simpa using h1
    have hmem' : (ts, p.2) ∈ (lookupKey lk (collectEnvData results).1).getD [] := by
      rw [← hts]
      exact hp
    exact lookupKey_ne_none_of_mem ts p.2 _ hmem' hw

/-- Weather envelope used by the C6 witness: location `ams`, one timestamp
`T1` with temperature 5, wind 10, precipitation 0. -/
def envWeatherT1 : EnvEnvelope :=
  ⟨"open-meteo-weather-ams", true,
    some ⟨some ⟨["T1"], some [some 5], some [some 10], some [some 0],
      none, none, none, none⟩⟩⟩

/-- Air envelope whose only timestamp is `T2` (so `T1` has no air data). -/
def envAirT2 : EnvEnvelope :=
  ⟨"open-meteo-air-ams", true,
    some ⟨some ⟨["T2"], none, none, none, some [some 7], some [some 8],
      some [some 50], some [some 48]⟩⟩⟩

/-- Air envelope whose only timestamp is `T1`, used for the counterexample
where no weather envelope mentions `T1`. -/
def envAirT1 : EnvEnvelope :=
  ⟨"open-meteo-air-ams", true,
    some ⟨some ⟨["T1"], none, none, none, some [some 7], some [some 8],
      some [some 50], some [some 48]⟩⟩⟩

/-- Witness for C6 amended: with a weather envelope containing `T1` and an
air envelope containing only `T2`, the transform emits the `T1` row with air
measures unset. -/
theorem c6_env_join_weather_side_witness :
    (("ams", "T1"),
        (⟨some 5, some 10, some 0, none, none, none, none⟩ : EnvMeasures)) ∈
      envRowsFor [envWeatherT1, envAirT2] ("ams") :=
  (c6_env_join_weather_side [envWeatherT1, envAirT2] ("ams") ("T1")
    (some 5, some 10, some 0)).1 rfl rfl

/-- C6 counterexample: the timestamp `T1` is present in the air-quality
envelope for `ams` (with populated measures) but absent from the weather
side, and the transform emits no row at all for the location — contradicting
the claim that such a timestamp is still emitted with the weather measures
unset. -/
theorem c6_counterexample_air_only_dropped :
    lookupKey ("T1") ((lookupKey ("ams") (collectEnvData [envAirT1]).2).getD []) =
        some (some 7, some 8, some 50, some 48) ∧
      envRowsFor [envAirT1] ("ams") = [] ∧
      transform_environment [envAirT1] [] = [] :=
  ⟨rfl, rfl, rfl⟩

/-- The method names defined by the `SQLiteStorage` class in
`sqlite_storage.py` (its complete `def` list).  Neither `log_source_run` nor
`latest_source_runs` is among them, although `AppService._log_source_run`
and the dashboard call them on the storage object. -/
def sqliteMethodNames : List String :=
  ["__init__", "_init_schema", "_seed_dimensions", "update_location_wiki",
    "upsert_env_hourly", "upsert_macro", "log_run", "latest_env_rows",
    "latest_env_kpis", "macro_series", "macro_latest", "close"]

/-- The tables created by `SQLiteStorage._init_schema`: there is no
source-run table. -/
def sqliteTableNames : List String :=
  ["dim_region", "dim_indicator", "dim_location", "fact_env_hourly",
    "fact_macro_annual", "fetch_run_log"]

/-- Python attribute dispatch for the call `self.sqlite.log_source_run(...)`
inside `AppService._log_source_run`: looking up a method that the class does
not define raises `AttributeError`. -/
def logSourceRunCall : Except String Unit :=
  if ("log_source_run") ∈ sqliteMethodNames then Except.ok ()
  else Except.error ("AttributeError: SQLiteStorage object has no attribute log_source_run")

/-- Models `AppService.fetch_environment` over the outcome of the source
fetch (`self.openmeteo.fetch()` either returns envelopes or raises).  On
success the transform stores its rows and `_log_source_run` is called with
`ok=True`; on any exception the `except` block calls `_log_source_run` with
`ok=False` and re-raises — and if that logging call itself raises, its
exception replaces the original one.  The optional Mongo audit mirror is
absent (`available=False`), so `log_fetch` is a no-op. -/
def fetch_environment (outcome : Except String (List EnvEnvelope)) (st : EnvTable) :
    Except String Unit × EnvTable :=
  match outcome with
  | Except.ok results =>
    let st2 := transform_environment results st
    match logSourceRunCall with
    | Except.ok _ => (Except.ok (), st2)
    | Except.error e =>
      match logSourceRunCall with
      | Except.ok _ => (Except.error e, st2)
      | Except.error e2 => (Except.error e2, st2)
  | Except.error e =>
    match logSourceRunCall with
    | Except.ok _ => (Except.error e, st)
    | Except.error e2 => (Except.error e2, st)

/-- C3 (code bug): `SQLiteStorage` defines no `log_source_run` method (and
no source-run table), so `AppService._log_source_run` raises
`AttributeError` on every call; every fetch cycle — successful or failed —
therefore terminates with that `AttributeError` and never writes a Source
Run Record, instead of writing exactly one per cycle attempt as specified. -/
theorem c3_source_run_record_never_written (outcome : Except String (List EnvEnvelope))
    (st : EnvTable) :
    ("log_source_run") ∉ sqliteMethodNames ∧
      ("latest_source_runs") ∉ sqliteMethodNames ∧
      ("source_run_log") ∉ sqliteTableNames ∧
      (fetch_environment outcome st).1 =
        Except.error ("AttributeError: SQLiteStorage object has no attribute log_source_run") := by
  refine ⟨by decide, by decide, by decide, ?_⟩
  cases outcome <;> rfl

/-- Result of `AppService.fetch_all` over the outcomes of its three
sub-fetches: the returned success flag, which sub-fetches were invoked, and
the aggregate run-log entries appended by `log_run`. -/
structure FetchAllResult where
  ok : Bool
  ranEnv : Bool
  ranMac : Bool
  ranWiki : Bool
  runLog : List (Bool × String)
deriving DecidableEq, Repr

/-- Boolean success of a sub-fetch outcome. -/
def isOkE (x : Except String Unit) : Bool :=
  match x with
  | Except.ok _ => true
  | Except.error _ => false

/-- Models `AppService.fetch_all`: the three sub-fetches run sequentially
inside one `try`; the first exception jumps to the `except` block, which
logs a failed aggregate run and returns `False`, so later sub-fetches are
not invoked.  Sub-fetch outcomes are abstracted as `Except` values. -/
def fetch_all (env mac wiki : Except String Unit) : FetchAllResult :=
  match env with
  | Except.error e => ⟨false, true, false, false, [(false, e)]⟩
  | Except.ok _ =>
    match mac with
    | Except.error e => ⟨false, true, true, false, [(false, e)]⟩
    | Except.ok _ =>
      match wiki with
      | Except.error e => ⟨false, true, true, true, [(false, e)]⟩
      | Except.ok _ => ⟨true, true, true, true, [(true, "ok")]⟩

/-- C5 counterexample: when the environment sub-fetch raises, `fetch_all`
reports failure but the macro and wikipedia sub-fetches are never invoked —
contradicting the claim that a failure in one sub-fetch does not prevent
the remaining sub-fetches from running and persisting their results. -/
theorem c5_counterexample_abort_on_first_failure :
    (fetch_all (Except.error ("boom")) (Except.ok ()) (Except.ok ())).ranMac = false ∧
      (fetch_all (Except.error ("boom")) (Except.ok ()) (Except.ok ())).ranWiki = false ∧
      (fetch_all (Except.error ("boom")) (Except.ok ()) (Except.ok ())).ok = false :=
  ⟨rfl, rfl, rfl⟩

/-- C5 amended: `fetch_all` reports overall success exactly when every
sub-fetch it ran succeeded (and it writes exactly one aggregate run-log
entry) — but the sub-fetches run inside a single `try`, so the first failure
aborts the remaining sub-fetches: macro runs only if environment succeeded,
and wikipedia only if both predecessors succeeded. -/
theorem c5_fetch_all_aborts_rest (env mac wiki : Except String Unit) :
    (fetch_all env mac wiki).ok = (isOkE env && isOkE mac && isOkE wiki) ∧
      (fetch_all env mac wiki).ranEnv = true ∧
      (fetch_all env mac wiki).ranMac = isOkE env ∧
      (fetch_all env mac wiki).ranWiki = (isOkE env && isOkE mac) ∧
      (fetch_all env mac wiki).runLog.length = 1 := by
  cases env <;> cases mac <;> cases wiki <;> exact ⟨rfl, rfl, rfl, rfl, rfl⟩

/-- A source tag for the scheduler loop (environment, macro, wikipedia). -/
inductive Src where
  | env
  | mac
  | wiki
deriving DecidableEq, Repr

/-- Per-source scheduler state of `_run_scheduler`: the abstract clock and
the three next-due timestamps (initialised to `time.time()`). -/
structure SchedState where
  now : Nat
  nextEnv : Nat
  nextMac : Nat
  nextWiki : Nat
deriving DecidableEq, Repr

/-- One `if now >= next_x:` block of the scheduler loop: when due, the
source's cycle runs (its exception propagates) and the next-due time
advances by the interval; otherwise nothing changes. -/
def stepSource (act : Nat → Except String Unit) (next interval now : Nat) :
    Except String (Nat × Bool) :=
  if next ≤ now then
    match act now with
    | Except.error e => Except.error e
    | Except.ok _ => Except.ok (now + interval, true)
  else Except.ok (next, false)

/-- One iteration of the `while` body of `AppService._run_scheduler`:
environment, macro and wikipedia are checked in that order (an exception
from a due source propagates immediately, skipping the remaining checks and
the rest of the loop), then the loop sleeps 5 seconds.  Cycle wall-clock
time is abstracted away: the clock advances only by the sleep. -/
def schedTick (acts : Src → Nat → Except String Unit) (ivs : Nat × Nat × Nat)
    (st : SchedState) : Except String (SchedState × List Src) := do
  let (ne, fe) ← stepSource (acts Src.env) st.nextEnv ivs.1 st.now
  let (nm, fm) ← stepSource (acts Src.mac) st.nextMac ivs.2.1 st.now
  let (nw, fw) ← stepSource (acts Src.wiki) st.nextWiki ivs.2.2 st.now
  pure (⟨st.now + 5, ne, nm, nw⟩,
    (if fe then [Src.env] else []) ++ (if fm then [Src.mac] else []) ++
      (if fw then [Src.wiki] else []))

/-- Runs the scheduler loop for `fuel` ticks (the stop event is never set in
this scenario).  Returns the trace of fired cycles `(time, source)` and the
exception that escaped the loop, if any — `_run_scheduler` has no
`try`/`except`, so an escaping exception terminates the loop's thread. -/
def runSched (acts : Src → Nat → Except String Unit) (ivs : Nat × Nat × Nat) :
    Nat → SchedState → List (Nat × Src) × Option String
  | 0, _ => ([], none)
  | fuel + 1, st =>
    match schedTick acts ivs st with
    | Except.error e => ([], some e)
    | Except.ok (st2, fired) =>
      let rest := runSched acts ivs fuel st2
      (fired.map (fun s => (st.now, s)) ++ rest.1, rest.2)

/-- Scheduler state at loop entry: every next-due timestamp is `now`. -/
def schedInit (t : Nat) : SchedState := ⟨t, t, t, t⟩

/-- Cycle outcomes where the environment cycle always raises and the other
sources would succeed. -/
def actsEnvBoom : Src → Nat → Except String Unit :=
  fun s _ =>
    match s with
    | Src.env => Except.error ("boom")
    | _ => Except.ok ()

/-- C4 counterexample: with all three sources due at t = 0 and the
environment cycle raising, the exception escapes the scheduler loop on its
first tick: the loop terminates (it does not catch the exception and
continue) and the macro cycle — due at the same instant — never fires even
with plenty of ticks remaining. -/
theorem c4_counterexample_loop_dies :
    runSched actsEnvBoom (60, 60, 60) 10 (schedInit 0) = ([], some ("boom")) ∧
      (runSched actsEnvBoom (60, 60, 60) 10 (schedInit 0)).1.countP
        (fun ev => decide (ev.2 = Src.mac)) = 0 :=
  ⟨rfl, rfl⟩

/-- C4 amended: `_run_scheduler` has no exception handler, so whenever a due
source's cycle raises, the exception propagates out of the scheduler loop
and terminates it immediately: no cycle fires in that or any later tick —
other sources' schedules are blocked rather than isolated.  (Shown here for
the environment source, which is checked first in the loop body.) -/
theorem c4_exception_escapes_scheduler (acts : Src → Nat → Except String Unit)
    (ivs : Nat × Nat × Nat) (st : SchedState) (fuel : Nat) (e : String)
    (hdue : st.nextEnv ≤ st.now) (hact : acts Src.env st.now = Except.error e) :
    runSched acts ivs (fuel + 1) st = ([], some e) := by
  have htick : schedTick acts ivs st = Except.error e := by
    simp [schedTick, stepSource, hdue, hact, Bind.bind, Except.bind]
  simp [runSched, htick]

/-- Witness for C4 amended at a concrete state and outcome set. -/
theorem c4_exception_escapes_scheduler_witness :
    runSched actsEnvBoom (60, 60, 60) 1 (schedInit 0) = ([], some ("boom")) :=
  c4_exception_escapes_scheduler actsEnvBoom (60, 60, 60) (schedInit 0) 0 ("boom")
    (Nat.le_refl 0) rfl

/-- Cross-thread state of the background scheduler as seen by
`start_scheduler` / `stop_scheduler`: whether `_stop_event` is set and
whether the loop thread is alive. -/
structure SchedulerHandle where
  stopFlagSet : Bool
  threadAlive : Bool
deriving DecidableEq, Repr

/-- Models `AppService.start_scheduler`: when the scheduler thread is alive
the call returns at the alive-check, before `self._stop_event.clear()` —
leaving the stop flag as it is and spawning no new thread; otherwise the
stop event is cleared and a fresh loop thread starts. -/
def start_scheduler (s : SchedulerHandle) : SchedulerHandle :=
  if s.threadAlive then s else ⟨false, true⟩

/-- Models `AppService.stop_scheduler`: sets the stop event; the loop thread
only observes it between ticks. -/
def stop_scheduler (s : SchedulerHandle) : SchedulerHandle :=
  ⟨true, s.threadAlive⟩

/-- The loop thread's next evaluation of
`while not self._stop_event.is_set()`: with the flag set the thread exits. -/
def observeStopFlag (s : SchedulerHandle) : SchedulerHandle :=
  if s.stopFlagSet && s.threadAlive then ⟨s.stopFlagSet, false⟩ else s

/-- Models `AppService.is_scheduler_running`. -/
def is_scheduler_running (s : SchedulerHandle) : Bool := s.threadAlive

/-- C10: calling `stop_scheduler` and then `start_scheduler` again while the
old loop thread is still alive (it checks the flag only between 5-second
ticks) makes `start_scheduler` return without starting a new loop and
without re-clearing the stop flag, so once the old thread observes the flag
and exits, no scheduler is running even though `start_scheduler` was the
last call made. -/
theorem c10_stop_start_race (s : SchedulerHandle) (halive : s.threadAlive = true) :
    start_scheduler (stop_scheduler s) = stop_scheduler s ∧
      (stop_scheduler s).stopFlagSet = true ∧
      is_scheduler_running (observeStopFlag (start_scheduler (stop_scheduler s))) = false := by
  refine ⟨?_, rfl, ?_⟩
  · simp [start_scheduler, stop_scheduler, halive]
  · simp [start_scheduler, stop_scheduler, observeStopFlag, is_scheduler_running, halive]

/-- Witness for C10 from a running scheduler with the flag clear. -/
theorem c10_stop_start_race_witness :
    start_scheduler (stop_scheduler ⟨false, true⟩) = stop_scheduler ⟨false, true⟩ ∧
      (stop_scheduler (⟨false, true⟩ : SchedulerHandle)).stopFlagSet = true ∧
      is_scheduler_running (observeStopFlag (start_scheduler (stop_scheduler ⟨false, true⟩))) =
        false :=
  c10_stop_start_race ⟨false, true⟩ rfl

/-- JSON values as decoded by `response.json()`, for the World Bank payloads
consumed by `transform_macro`. -/
inductive Json where
  | null
  | bool (b : Bool)
  | num (q : ℚ)
  | str (s : String)
  | arr (items : List Json)
  | obj (fields : List (String × Json))
deriving Repr

/-- Python truthiness of a JSON value (`if region and year:` and the payload
guard `not result.payload_json`). -/
def truthy : Json → Bool
  | Json.null => false
  | Json.bool b => b
  | Json.num q => !decide (q = 0)
  | Json.str s => !s.isEmpty
  | Json.arr items => !items.isEmpty
  | Json.obj fields => !fields.isEmpty

/-- Python `dict.get(key)`: the stored value, or `None` when absent. -/
def objGet (fields : List (String × Json)) (k : String) : Json :=
  match lookupKey k fields with
  | some v => v
  | none => Json.null

/-- The Python exceptions `transform_macro` can encounter: only `ValueError`
is caught by its `try`/`except`. -/
inductive PyErr where
  | typeError
  | valueError
  | attributeError
deriving DecidableEq, Repr

/-- Digit run of a decimal integer literal; `none` when empty or when a
non-digit occurs. -/
def parseDigitsAux : List Char → Nat → Option Nat
  | [], acc => some acc
  | c :: cs, acc =>
    if c.isDigit then parseDigitsAux cs (acc * 10 + (c.toNat - 48)) else none

/-- Parse a non-empty all-digit character list. -/
def parseDigits : List Char → Option Nat
  | [] => none
  | l => parseDigitsAux l 0

/-- Python `int(s)` on a string: optional surrounding spaces, an optional
sign, then decimal digits; anything else raises `ValueError` (modelled as
`none`). -/
def parseIntStr (s : String) : Option Int :=
  let cs := s.toList.dropWhile (fun c => c = ' ')
  let cs2 := (cs.reverse.dropWhile (fun c => c = ' ')).reverse
  match cs2 with
  | '-' :: rest => (parseDigits rest).map (fun n => -(n : Int))
  | '+' :: rest => (parseDigits rest).map (fun n => (n : Int))
  | _ => (parseDigits cs2).map (fun n => (n : Int))

/-- Truncation toward zero, Python `int(float)`. -/
def ratTrunc (q : ℚ) : Int := q.num.tdiv (q.den : Int)

/-- Python `int(year)` on a JSON value: numbers truncate, strings parse
(`ValueError` on a malformed string), booleans coerce, and any other type
raises `TypeError`. -/
def jsonToInt : Json → Except PyErr Int
  | Json.num q => Except.ok (ratTrunc q)
  | Json.str s =>
    match parseIntStr s with
    | some n => Except.ok n
    | none => Except.error PyErr.valueError
  | Json.bool b => Except.ok (if b then 1 else 0)
  | Json.null => Except.error PyErr.typeError
  | Json.arr _ => Except.error PyErr.typeError
  | Json.obj _ => Except.error PyErr.typeError

/-- A row appended by `transform_macro`: `(region, indicator, int(year),
value)` with `region` and `value` taken from the record as-is. -/
abbrev MacroRowJ := Json × String × Int × Json

/-- The parts of a `RawFetchResult` consumed by `transform_macro`. -/
structure MacroEnvelope where
  source : String
  ok : Bool
  payload : Option Json
deriving Repr

/-- Body of the inner `for entry in data_entries:` loop for one record:
skipped (`none`) when the record is not kept — region or year absent or
falsy, or `int(year)` raising the caught `ValueError`; a kept record yields
its row; `TypeError` from `int(year)` and `AttributeError` from `.get` on a
non-dict record are not caught and propagate. -/
def convertEntry (indicator : String) (entry : Json) : Except PyErr (Option MacroRowJ) :=
  match entry with
  | Json.obj fields =>
    let region := objGet fields ("countryiso3code")
    let year := objGet fields ("date")
    let value := objGet fields ("value")
    if truthy region && truthy year then
      match jsonToInt year with
      | Except.ok y => Except.ok (some (region, indicator, y, value))
      | Except.error PyErr.valueError => Except.ok none
      | Except.error err => Except.error err
    else Except.ok none
  | _ => Except.error PyErr.attributeError

/-- The record conversion restricted to safe records: what the per-record
skipping is supposed to compute (kept row or individual skip). -/
def convertEntrySafe (indicator : String) (entry : Json) : Option MacroRowJ :=
  match entry with
  | Json.obj fields =>
    let region := objGet fields ("countryiso3code")
    let year := objGet fields ("date")
    let value := objGet fields ("value")
    if truthy region && truthy year then
      match jsonToInt year with
      | Except.ok y => some (region, indicator, y, value)
      | Except.error _ => none
    else none
  | _ => none

/-- A record on which `transform_macro` cannot raise an uncaught exception:
it is a JSON object and its `date` field is not a list or object (so
`int(year)` can only succeed or raise the caught `ValueError`). -/
def entrySafe (entry : Json) : Bool :=
  match entry with
  | Json.obj fields =>
    match objGet fields ("date") with
    | Json.arr _ => false
    | Json.obj _ => false
    | _ => true
  | _ => false

/-- The inner record loop of `transform_macro`, accumulating kept rows in
order; the first uncaught exception aborts the whole transform. -/
def macroEntriesLoop (indicator : String) : List Json → List MacroRowJ →
    Except PyErr (List MacroRowJ)
  | [], acc => Except.ok acc
  | e :: rest, acc =>
    match convertEntry indicator e with
    | Except.ok (some row) => macroEntriesLoop indicator rest (acc ++ [row])
    | Except.ok none => macroEntriesLoop indicator rest acc
    | Except.error err => Except.error err

/-- Rows contributed by one envelope in `transform_macro`: skipped wholesale
unless ok with a truthy payload, a source label with at least two
hyphen-separated parts, and a list payload of length at least 2; the second
payload element must be a list of records (iterating anything else ends in
an uncaught `TypeError`/`AttributeError`, collapsed to `typeError` here). -/
def macroRowsOfResult (r : MacroEnvelope) (acc : List MacroRowJ) :
    Except PyErr (List MacroRowJ) :=
  match r.ok, r.payload with
  | true, some p =>
    if truthy p then
      let parts := (splitOnChar ('-') r.source.toList).map String.mk
      if parts.length < 2 then Except.ok acc
      else
        let indicator := parts.getD 1 ("")
        match p with
        | Json.arr items =>
          if items.length < 2 then Except.ok acc
          else
            match items.getD 1 Json.null with
            | Json.arr entries => macroEntriesLoop indicator entries acc
            | _ => Except.error PyErr.typeError
        | _ => Except.ok acc
    else Except.ok acc
  | _, _ => Except.ok acc

/-- Outer loop of `transform_macro` over all envelopes, sharing one `rows`
accumulator (the batched upsert happens only after the loop completes, so an
uncaught exception means nothing at all is stored). -/
def macroResultsLoop : List MacroEnvelope → List MacroRowJ → Except PyErr (List MacroRowJ)
  | [], acc => Except.ok acc
  | r :: rest, acc =>
    match macroRowsOfResult r acc with
    | Except.ok acc2 => macroResultsLoop rest acc2
    | Except.error e => Except.error e

/-- Models `transform_macro` (`transform/macro.py`): the rows it would hand
to `upsert_macro` (one batched call, only reached when no uncaught exception
occurred), or the uncaught exception. -/
def transform_macro_rows (results : List MacroEnvelope) : Except PyErr (List MacroRowJ) :=
  macroResultsLoop results []

theorem convertEntry_safe_eq (indicator : String) (entry : Json)
    (h : entrySafe entry = true) :
    convertEntry indicator entry = Except.ok (convertEntrySafe indicator entry) := by
  cases entry with
  | obj fields =>
    by_cases htr : (truthy (objGet fields ("countryiso3code")) &&
        truthy (objGet fields ("date"))) = true
    · cases hd : objGet fields ("date") with
      | null => rw [hd] at htr; simp [truthy] at htr
      | bool b =>
        simp only [convertEntry, convertEntrySafe, hd, jsonToInt]
        split <;> rfl
      | num q =>
        simp only [convertEntry, convertEntrySafe, hd, jsonToInt]
        split <;> rfl
      | str s =>
        simp only [convertEntry, convertEntrySafe, hd, jsonToInt]
        cases parseIntStr s <;> split <;> rfl
      | arr items => simp only [entrySafe, hd] at h; cases h
      | obj fields2 => simp only [entrySafe, hd] at h; cases h
    · simp [convertEntry, convertEntrySafe, htr]
  | null => simp [entrySafe] at h
  | bool b => simp [entrySafe] at h
  | num q => simp [entrySafe] at h
  | str s => simp [entrySafe] at h
  | arr items => simp [entrySafe] at h

theorem macroEntriesLoop_safe (indicator : String) (entries : List Json)
    (h : entries.all entrySafe = true) :
    ∀ acc, macroEntriesLoop indicator entries acc =
      Except.ok (acc ++ entries.filterMap (convertEntrySafe indicator)) := by
  induction entries with
  | nil => intro acc; simp [macroEntriesLoop]
  | cons e rest ih =>
    intro acc
    simp only [List.all_cons, Bool.and_eq_true] at h
    rw [macroEntriesLoop, convertEntry_safe_eq indicator e h.1]
    cases hc : convertEntrySafe indicator e with
    | some row =>
      simp only [List.filterMap_cons, hc]
      rw [ih h.2 (acc ++ [row])]
      simp
    | none =>
      simp only [List.filterMap_cons, hc]
      exact ih h.2 acc

/-- C8 amended: for a batch of records none of whose year fields is a list
or an object, records with absent or falsy region/year, or with a string
year that fails integer parsing (the caught `ValueError`), are skipped
individually while every remaining well-formed record of the batch is
converted to a row, in order (a `filterMap` over the records), and the
batch reaches its single upsert.  But only `ValueError` is caught: a record
whose year field is a truthy list or object makes `int(year)` raise
`TypeError`, which aborts the entire transform before anything is stored
(see the counterexample). -/
theorem c8_macro_per_record_skipping (entries : List Json)
    (hent : entries.all entrySafe = true) :
    transform_macro_rows
        [⟨"worldbank-IND", true, some (Json.arr [Json.null, Json.arr entries])⟩] =
      Except.ok (entries.filterMap (convertEntrySafe ("IND"))) := by
  show macroResultsLoop _ [] = _
  rw [macroResultsLoop,
    show macroRowsOfResult
        ⟨"worldbank-IND", true, some (Json.arr [Json.null, Json.arr entries])⟩ [] =
      macroEntriesLoop ("IND") entries [] from rfl,
    macroEntriesLoop_safe ("IND") entries hent []]
  rfl

/-- Record kept by the witness batch: (NLD, 2023, value 4). -/
def entryNLD : Json :=
  Json.obj [("countryiso3code", Json.str "NLD"), ("date", Json.str "2023"),
    ("value", Json.num 4)]

/-- Record whose year string does not parse (`ValueError`, skipped). -/
def entryBadYear : Json :=
  Json.obj [("countryiso3code", Json.str "EUU"), ("date", Json.str "20x3"),
    ("value", Json.num 5)]

/-- Record with no region field (falsy `None`, skipped). -/
def entryNoRegion : Json :=
  Json.obj [("date", Json.str "2022"), ("value", Json.num 6)]

/-- Second kept record: (USA, 2022, value 7). -/
def entryUSA : Json :=
  Json.obj [("countryiso3code", Json.str "USA"), ("date", Json.str "2022"),
    ("value", Json.num 7)]

/-- Record whose year is a (truthy) list: `int(year)` raises `TypeError`,
which nothing catches. -/
def entryYearList : Json :=
  Json.obj [("countryiso3code", Json.str "USA"), ("date", Json.arr [Json.num 1]),
    ("value", Json.num 2)]

/-- Witness for C8 amended: a batch with two well-formed records, one
`ValueError` record and one record with a missing region yields exactly the
two well-formed rows, in order. -/
theorem c8_macro_per_record_skipping_witness :
    transform_macro_rows
        [⟨"worldbank-IND", true,
          some (Json.arr [Json.null,
            Json.arr [entryNLD, entryBadYear, entryNoRegion, entryUSA]])⟩] =
      Except.ok [(Json.str "NLD", "IND", 2023, Json.num 4),
        (Json.str "USA", "IND", 2022, Json.num 7)] := by
  rw [c8_macro_per_record_skipping
      [entryNLD, entryBadYear, entryNoRegion, entryUSA] rfl]
  rfl

/-- C8 counterexample: a batch holding a well-formed record followed by a
record whose year field is a list does not store the well-formed record —
`int(year)` raises an uncaught `TypeError` and the whole transform aborts
with no upsert at all, contradicting the claim that a record whose year is
not coercible to an integer is skipped individually while the rest of the
batch is stored. -/
theorem c8_counterexample_type_error_aborts_batch :
    transform_macro_rows
        [⟨"worldbank-IND", true,
          some (Json.arr [Json.null, Json.arr [entryNLD, entryYearList]])⟩] =
      Except.error PyErr.typeError := rfl

end EcoPulse
